import Mathlib

/-!
Shallow embedding of the `fragmentation-test` repository (Rust):
* `src/lib.rs` — pagemap entry codec (`SinglePageData`), seekable reader (`PageMap`).
* `src/main.rs` — contiguity analysis (`process_allocated_mem`, `categorize`).

Machine integers (`u64`, `usize`) are modelled as `Nat`; all bit masks are at most
2^63 so no `u64` operation in the modelled code can overflow, and `e - s + 1` is
only evaluated where the code guarantees `s ≤ e`.  The backing file is a byte
list; `read_exact` succeeds exactly when the requested span lies inside the file
(a zero-length read always succeeds, as in `std::io::Read::read_exact`).
Records are decoded little-endian, matching the native endianness the crate
assumes (x86-64).
-/

namespace FragTest

/-! ### Constants from `src/lib.rs` -/

def PAGE_SHIFT : Nat := 12

def PAGE_SIZE : Nat := 1 <<< PAGE_SHIFT

def PAGEMAP_PRESENT_MASK : Nat := 1 <<< 63

def PAGEMAP_SWAP_MASK : Nat := 1 <<< 62

def PAGEMAP_FILE_MASK : Nat := 1 <<< 61

def PAGEMAP_EXCLUSIVE_MASK : Nat := 1 <<< 56

def PAGEMAP_SOFT_DIRTY_MASK : Nat := 1 <<< 55

def PAGEMAP_PFN_MASK : Nat := (1 <<< 55) - 1

/-- One 8-byte record of `/proc/[pid]/pagemap` (`struct SinglePageData(u64)`). -/
structure SinglePageData where
  val : Nat
deriving DecidableEq

def SinglePageData.present (d : SinglePageData) : Bool :=
  d.val &&& PAGEMAP_PRESENT_MASK != 0

def SinglePageData.swap (d : SinglePageData) : Bool :=
  d.val &&& PAGEMAP_SWAP_MASK != 0

def SinglePageData.file_backed (d : SinglePageData) : Bool :=
  d.val &&& PAGEMAP_FILE_MASK != 0

def SinglePageData.exclusive (d : SinglePageData) : Bool :=
  d.val &&& PAGEMAP_EXCLUSIVE_MASK != 0

def SinglePageData.soft_dirty (d : SinglePageData) : Bool :=
  d.val &&& PAGEMAP_SOFT_DIRTY_MASK != 0

def SinglePageData.pfn (d : SinglePageData) : Nat :=
  d.val &&& PAGEMAP_PFN_MASK

/-- The `Display` impl: five fixed-order flag characters, a space, the pfn in
decimal. -/
def SinglePageData.display (d : SinglePageData) : String :=
  (if d.present then "P" else "-") ++
  (if d.swap then "S" else "-") ++
  (if d.file_backed then "F" else "-") ++
  (if d.exclusive then "X" else "-") ++
  (if d.soft_dirty then "D" else "-") ++
  " " ++ toString d.pfn

/-! ### The reader from `src/lib.rs` -/

/-- The `PageMap` struct: a seekable view of the pagemap file, modelled by the
file's byte contents. -/
structure PageMap where
  bytes : List Nat

/-- `seek(SeekFrom::Start(offset))` followed by `read_exact` of `len` bytes:
succeeds iff the file holds `len` bytes at and after `offset` (a zero-length
read always succeeds). -/
def readExact (pm : PageMap) (offset len : Nat) : Option (List Nat) :=
  if len ≤ pm.bytes.length - offset then some ((pm.bytes.drop offset).take len)
  else none

/-- `transmute::<[u8; 8], u64>` on a little-endian machine. -/
def fromBytesLE (bs : List Nat) : Nat :=
  bs.foldr (fun b acc => b + 256 * acc) 0

/-- How a reader call can fail: a violated `assert!` (panic) or a propagated
`std::io::Error`. -/
inductive ReadError
  | contractViolation
  | ioFailure
deriving DecidableEq

/-- `PageMap::get_by_vaddr`. -/
def get_by_vaddr (pm : PageMap) (vaddr : Nat) : Except ReadError SinglePageData :=
  if vaddr &&& (PAGE_SIZE - 1) != 0 then .error .contractViolation
  else
    match readExact pm ((vaddr >>> PAGE_SHIFT) * 8) 8 with
    | none => .error .ioFailure
    | some data => .ok ⟨fromBytesLE data⟩

/-- The `Vec<u8>` → `Vec<SinglePageData>` reinterpretation: decode `n`
consecutive 8-byte records. -/
def decodeChunks : Nat → List Nat → List SinglePageData
  | 0, _ => []
  | n + 1, data => ⟨fromBytesLE (data.take 8)⟩ :: decodeChunks n (data.drop 8)

/-- `PageMap::get_by_range` (`start` inclusive, `stop` exclusive): both asserts,
then a single bulk read of `(stop - start) / PAGE_SIZE * 8` bytes. -/
def get_by_range (pm : PageMap) (start stop : Nat) : Except ReadError (List SinglePageData) :=
  if (stop - start) % PAGE_SIZE != 0 then .error .contractViolation
  else if start % PAGE_SIZE != 0 then .error .contractViolation
  else
    match readExact pm ((start >>> PAGE_SHIFT) * 8) (((stop - start) >>> PAGE_SHIFT) * 8) with
    | none => .error .ioFailure
    | some data => .ok (decodeChunks ((stop - start) >>> PAGE_SHIFT) data)

/-! ### The contiguity analysis from `src/main.rs` -/

/-- How `process_allocated_mem` can fail: the `PermissionDenied` error raised on
a zero pfn, or a propagated I/O error. -/
inductive AnalysisError
  | frameNotVisible
  | ioFailure
deriving DecidableEq

/-- The scan loop of `process_allocated_mem`, carrying the mutable state
`contig`, `start`, `prev`.  Note: after the last entry the still-open run is
NOT pushed — the loop simply ends, exactly as in the source. -/
def analyzeLoop :
    List SinglePageData → List (Nat × Nat) → Nat → Nat → Except AnalysisError (List (Nat × Nat))
  | [], contig, _, _ => .ok contig
  | page :: rest, contig, start, prev =>
    if page.pfn = 0 then .error .frameNotVisible
    else if page.pfn ≠ prev + 1 then analyzeLoop rest (contig ++ [(start, prev)]) page.pfn page.pfn
    else analyzeLoop rest contig start page.pfn

/-- `process_allocated_mem` restricted to its pure part: the run-recording scan
over the entry sequence returned by `get_by_range`, with `contig`, `start`,
`prev` initialised to `Vec::new()`, `0`, `0`. -/
def processAllocatedMem (pages : List SinglePageData) : Except AnalysisError (List (Nat × Nat)) :=
  analyzeLoop pages [] 0 0

/-- Length of a recorded run, as computed by `map(|(s, e)| e - s + 1)`. -/
def runLen (r : Nat × Nat) : Nat := r.2 - r.1 + 1

/-- `contig.iter().map(|(s, e)| e - s + 1)`. -/
def runLengths (contig : List (Nat × Nat)) : List Nat :=
  contig.map (fun r => r.2 - r.1 + 1)

/-- `categorize`: the run-length histogram, modelled as a count function
(`BTreeMap` lookup with missing keys read as 0). -/
def categorize (contig : List Nat) : Nat → Nat :=
  contig.foldl (fun m range => Function.update m range (m range + 1)) (fun _ => 0)

/-! ### Spec-side definitions used to state the claims -/

/-- Re-encode an entry from its five decoded flag predicates and its decoded
frame field (the reassembly direction of the round-trip property). -/
def reassemble (d : SinglePageData) : Nat :=
  (if d.present then PAGEMAP_PRESENT_MASK else 0) |||
  (if d.swap then PAGEMAP_SWAP_MASK else 0) |||
  (if d.file_backed then PAGEMAP_FILE_MASK else 0) |||
  (if d.exclusive then PAGEMAP_EXCLUSIVE_MASK else 0) |||
  (if d.soft_dirty then PAGEMAP_SOFT_DIRTY_MASK else 0) |||
  d.pfn

/-- The union of all defined bit positions: 63, 62, 61, 56, 55 and 54–0. -/
def definedBitsMask : Nat :=
  PAGEMAP_PRESENT_MASK ||| PAGEMAP_SWAP_MASK ||| PAGEMAP_FILE_MASK |||
  PAGEMAP_EXCLUSIVE_MASK ||| PAGEMAP_SOFT_DIRTY_MASK ||| PAGEMAP_PFN_MASK

/-- Modelled from the spec's words (§4.2, range-read equivalence): the ordered
concatenation of `entryAt` (`get_by_vaddr`) at each page boundary of the range,
`n` pages starting at `v`. -/
def entriesViaPointReads (pm : PageMap) : Nat → Nat → Except ReadError (List SinglePageData)
  | _, 0 => .ok []
  | v, n + 1 =>
    match get_by_vaddr pm v with
    | .error e => .error e
    | .ok x =>
      match entriesViaPointReads pm (v + PAGE_SIZE) n with
      | .error e => .error e
      | .ok xs => .ok (x :: xs)

/-! ### Lemmas about the scan loop -/

lemma analyzeLoop_zero_mem :
    ∀ (pages : List SinglePageData) (contig : List (Nat × Nat)) (s pr : Nat),
      (∃ p ∈ pages, p.pfn = 0) →
      analyzeLoop pages contig s pr = .error .frameNotVisible := by
  intro pages
  induction pages with
  | nil => intro contig s pr h; simp at h
  | cons page rest ih =>
    intro contig s pr h
    rcases h with ⟨p, hp, hp0⟩
    rcases List.mem_cons.mp hp with rfl | hmem
    · simp only [analyzeLoop, hp0]
      simp
    · by_cases h0 : page.pfn = 0
      · simp only [analyzeLoop, h0]
        simp
      · rw [analyzeLoop, if_neg h0]
        by_cases h1 : page.pfn ≠ pr + 1
        · rw [if_pos h1]; exact ih _ _ _ ⟨p, hmem, hp0⟩
        · rw [if_neg h1]; exact ih _ _ _ ⟨p, hmem, hp0⟩

lemma analyzeLoop_ok_extends :
    ∀ (pages : List SinglePageData) (contig : List (Nat × Nat)) (s pr : Nat)
      (runs : List (Nat × Nat)),
      analyzeLoop pages contig s pr = .ok runs → ∃ tail, runs = contig ++ tail := by
  intro pages
  induction pages with
  | nil =>
    intro contig s pr runs h
    rw [analyzeLoop] at h
    exact ⟨[], by simpa using (Except.ok.inj h).symm⟩
  | cons page rest ih =>
    intro contig s pr runs h
    rw [analyzeLoop] at h
    by_cases h0 : page.pfn = 0
    · rw [if_pos h0] at h; exact absurd h (by simp)
    · rw [if_neg h0] at h
      by_cases h1 : page.pfn ≠ pr + 1
      · rw [if_pos h1] at h
        obtain ⟨tail, ht⟩ := ih _ _ _ _ h
        exact ⟨(s, pr) :: tail, by simp [ht]⟩
      · rw [if_neg h1] at h
        exact ih _ _ _ _ h

/-- Claim C4: a zero frame number anywhere in the scanned entry sequence makes
the analysis fail with the dedicated frame-not-visible condition, which is
distinct from the I/O-failure condition; no run list is produced, so the zero
frame is never part of any run. -/
theorem zero_pfn_fails_frame_not_visible
    (pages : List SinglePageData) (h : ∃ p ∈ pages, p.pfn = 0) :
    processAllocatedMem pages = .error .frameNotVisible ∧
      AnalysisError.frameNotVisible ≠ AnalysisError.ioFailure :=
  ⟨analyzeLoop_zero_mem pages [] 0 0 h, by decide⟩

theorem zero_pfn_fails_frame_not_visible_witness :
    processAllocatedMem [⟨0⟩, ⟨5⟩] = .error .frameNotVisible ∧
      AnalysisError.frameNotVisible ≠ AnalysisError.ioFailure :=
  zero_pfn_fails_frame_not_visible [⟨0⟩, ⟨5⟩] ⟨⟨0⟩, by simp, by decide⟩

/-- Claim C3: when the first scanned entry has a non-zero pfn different from 1,
the scan records the spurious leading run (0, 0) — of length 1 and
corresponding to no scanned page — because `start` and `prev` are initialised
to 0 rather than being unset; whenever the scan returns a run list, that list
begins with (0, 0). -/
theorem leading_spurious_run
    (p : SinglePageData) (rest : List SinglePageData)
    (h0 : p.pfn ≠ 0) (h1 : p.pfn ≠ 1) :
    processAllocatedMem (p :: rest) = analyzeLoop rest [(0, 0)] p.pfn p.pfn ∧
      runLen (0, 0) = 1 ∧
      ∀ runs, processAllocatedMem (p :: rest) = .ok runs → runs.head? = some (0, 0) := by
  have hstep : processAllocatedMem (p :: rest) = analyzeLoop rest [(0, 0)] p.pfn p.pfn := by
    rw [processAllocatedMem, analyzeLoop, if_neg h0, if_pos (by simpa using h1)]
    simp
  refine ⟨hstep, rfl, ?_⟩
  intro runs hruns
  rw [hstep] at hruns
  obtain ⟨tail, rfl⟩ := analyzeLoop_ok_extends rest [(0, 0)] _ _ runs hruns
  simp

theorem leading_spurious_run_witness :
    processAllocatedMem [⟨5⟩] =
        analyzeLoop [] [(0, 0)] (SinglePageData.pfn ⟨5⟩) (SinglePageData.pfn ⟨5⟩) ∧
      runLen (0, 0) = 1 ∧
      ∀ runs, processAllocatedMem [⟨5⟩] = .ok runs → runs.head? = some (0, 0) :=
  leading_spurious_run ⟨5⟩ [] (by decide) (by decide)

/-- Claim C1 (code bug): on the fully contiguous frames 5, 6, 7 the scan never
flushes the still-open trailing run after the last entry, so instead of the one
specified run (5, 7) of length 3 with histogram mapping 3 to 1, it records only
the spurious run (0, 0), and the histogram maps 1 to 1 and 3 to 0. -/
theorem contiguous_range_missing_trailing_flush :
    processAllocatedMem [⟨5⟩, ⟨6⟩, ⟨7⟩] = .ok [(0, 0)] ∧
      categorize (runLengths [(0, 0)]) 1 = 1 ∧
      categorize (runLengths [(0, 0)]) 3 = 0 ∧
      ([(0, 0)] : List (Nat × Nat)) ≠ [(5, 7)] :=
  ⟨by rfl, by decide, by decide, by decide⟩

/-- Claim C2 (code bug): on frames 100, 101, 200, 201, 202 the scan records the
spurious run (0, 0) and the run (100, 101) but never the trailing run
(200, 202), so the histogram maps 1 to 1, 2 to 1 and 3 to 0 — not the specified
runs (100, 101), (200, 202) with histogram mapping 2 to 1 and 3 to 1. -/
theorem scenario_b_runs_and_histogram :
    processAllocatedMem [⟨100⟩, ⟨101⟩, ⟨200⟩, ⟨201⟩, ⟨202⟩] = .ok [(0, 0), (100, 101)] ∧
      categorize (runLengths [(0, 0), (100, 101)]) 1 = 1 ∧
      categorize (runLengths [(0, 0), (100, 101)]) 2 = 1 ∧
      categorize (runLengths [(0, 0), (100, 101)]) 3 = 0 ∧
      ([(0, 0), (100, 101)] : List (Nat × Nat)) ≠ [(100, 101), (200, 202)] :=
  ⟨by rfl, by decide, by decide, by decide, by decide⟩

/-! ### Codec theorems -/

lemma land_shiftLeft_ne_zero (v k : Nat) :
    (v &&& (1 <<< k) != 0) = v.testBit k := by
  rw [Nat.shiftLeft_eq, one_mul, Nat.and_two_pow]
  cases h : v.testBit k <;> simp [h]

lemma pfn_eq_mod (v : Nat) : SinglePageData.pfn ⟨v⟩ = v % 2 ^ 55 := by
  show v &&& ((1 <<< 55) - 1) = v % 2 ^ 55
  rw [Nat.shiftLeft_eq, one_mul, Nat.and_pow_two_sub_one_eq_mod]

lemma if_flag_collapse (v k : Nat) :
    (if (v &&& (1 <<< k) != 0) = true then (1 <<< k) else 0) = v &&& (1 <<< k) := by
  rw [Nat.shiftLeft_eq, one_mul, Nat.and_two_pow]
  cases h : v.testBit k <;> simp [h]

lemma land_lor_distrib (x a b : Nat) : (x &&& a) ||| (x &&& b) = x &&& (a ||| b) := by
  apply Nat.eq_of_testBit_eq
  intro i
  simp only [Nat.testBit_or, Nat.testBit_and]
  cases x.testBit i <;> cases a.testBit i <;> cases b.testBit i <;> rfl

lemma flag_toggle (v j k : Nat) :
    ((v ^^^ (1 <<< j)) &&& (1 <<< k) != 0) =
      if j = k then !(v &&& (1 <<< k) != 0) else (v &&& (1 <<< k) != 0) := by
  rw [land_shiftLeft_ne_zero, land_shiftLeft_ne_zero, Nat.shiftLeft_eq, one_mul,
    Nat.testBit_xor, Nat.testBit_two_pow]
  by_cases h : j = k <;> simp [h]

lemma pfn_toggle (v j : Nat) :
    SinglePageData.pfn ⟨v ^^^ (1 <<< j)⟩ =
      if j < 55 then SinglePageData.pfn ⟨v⟩ ^^^ (1 <<< j) else SinglePageData.pfn ⟨v⟩ := by
  rw [pfn_eq_mod, pfn_eq_mod, Nat.shiftLeft_eq, one_mul]
  by_cases h : j < 55
  · rw [if_pos h]
    apply Nat.eq_of_testBit_eq
    intro i
    simp only [Nat.testBit_mod_two_pow, Nat.testBit_xor, Nat.testBit_two_pow]
    by_cases hi : i < 55
    · simp [hi]
    · have hji : j ≠ i := by omega
      simp [hi, hji]
  · rw [if_neg h]
    apply Nat.eq_of_testBit_eq
    intro i
    simp only [Nat.testBit_mod_two_pow, Nat.testBit_xor, Nat.testBit_two_pow]
    by_cases hi : i < 55
    · have hji : j ≠ i := by omega
      simp [hi, hji]
    · simp [hi]

lemma xor_shiftLeft_ne (a j : Nat) : a ^^^ (1 <<< j) ≠ a := by
  intro h
  have h0 : a ^^^ (a ^^^ (1 <<< j)) = a ^^^ a := congrArg (a ^^^ ·) h
  rw [← Nat.xor_assoc, Nat.xor_self, Nat.zero_xor] at h0
  simp [Nat.shiftLeft_eq] at h0

lemma reassemble_eq_land (v : Nat) : reassemble ⟨v⟩ = v &&& definedBitsMask := by
  rw [reassemble]
  simp only [SinglePageData.present, SinglePageData.swap, SinglePageData.file_backed,
    SinglePageData.exclusive, SinglePageData.soft_dirty, SinglePageData.pfn,
    PAGEMAP_PRESENT_MASK, PAGEMAP_SWAP_MASK, PAGEMAP_FILE_MASK, PAGEMAP_EXCLUSIVE_MASK,
    PAGEMAP_SOFT_DIRTY_MASK, PAGEMAP_PFN_MASK, definedBitsMask]
  rw [if_flag_collapse, if_flag_collapse, if_flag_collapse, if_flag_collapse, if_flag_collapse]
  rw [land_lor_distrib, land_lor_distrib, land_lor_distrib, land_lor_distrib, land_lor_distrib]

/-- Claim C8: for every 64-bit value whose set bits lie only in the defined
positions (63, 62, 61, 56, 55 and 54–0), reassembling the value from the five
decoded flag predicates and the decoded frame field reproduces the original
value exactly. -/
theorem codec_round_trip (v : Nat) (hv : v < 2 ^ 64) (hdef : v &&& definedBitsMask = v) :
    reassemble ⟨v⟩ = v := by
  rw [reassemble_eq_land, hdef]

theorem codec_round_trip_witness :
    (2 ^ 63 + 2 ^ 55 + 123 : Nat) < 2 ^ 64 ∧
      (2 ^ 63 + 2 ^ 55 + 123 : Nat) &&& definedBitsMask = 2 ^ 63 + 2 ^ 55 + 123 ∧
      reassemble ⟨2 ^ 63 + 2 ^ 55 + 123⟩ = 2 ^ 63 + 2 ^ 55 + 123 :=
  ⟨by decide, by decide, codec_round_trip _ (by decide) (by decide)⟩

lemma present_xor (v j : Nat) :
    SinglePageData.present ⟨v ^^^ (1 <<< j)⟩ =
      if j = 63 then !SinglePageData.present ⟨v⟩ else SinglePageData.present ⟨v⟩ := by
  simp only [SinglePageData.present, PAGEMAP_PRESENT_MASK]
  exact flag_toggle v j 63

lemma swap_xor (v j : Nat) :
    SinglePageData.swap ⟨v ^^^ (1 <<< j)⟩ =
      if j = 62 then !SinglePageData.swap ⟨v⟩ else SinglePageData.swap ⟨v⟩ := by
  simp only [SinglePageData.swap, PAGEMAP_SWAP_MASK]
  exact flag_toggle v j 62

lemma file_backed_xor (v j : Nat) :
    SinglePageData.file_backed ⟨v ^^^ (1 <<< j)⟩ =
      if j = 61 then !SinglePageData.file_backed ⟨v⟩ else SinglePageData.file_backed ⟨v⟩ := by
  simp only [SinglePageData.file_backed, PAGEMAP_FILE_MASK]
  exact flag_toggle v j 61

lemma exclusive_xor (v j : Nat) :
    SinglePageData.exclusive ⟨v ^^^ (1 <<< j)⟩ =
      if j = 56 then !SinglePageData.exclusive ⟨v⟩ else SinglePageData.exclusive ⟨v⟩ := by
  simp only [SinglePageData.exclusive, PAGEMAP_EXCLUSIVE_MASK]
  exact flag_toggle v j 56

lemma soft_dirty_xor (v j : Nat) :
    SinglePageData.soft_dirty ⟨v ^^^ (1 <<< j)⟩ =
      if j = 55 then !SinglePageData.soft_dirty ⟨v⟩ else SinglePageData.soft_dirty ⟨v⟩ := by
  simp only [SinglePageData.soft_dirty, PAGEMAP_SOFT_DIRTY_MASK]
  exact flag_toggle v j 55

/-- Claim C9: toggling any one defined flag bit (63, 62, 61, 56, 55) of a
64-bit value flips exactly the corresponding flag predicate and leaves the
other four predicates and the masked frame field unchanged; conversely,
toggling any single bit in positions 54–0 changes the frame field and leaves
all five flag predicates unchanged. -/
theorem flag_bit_independence (v : Nat) (hv : v < 2 ^ 64) :
    (SinglePageData.present ⟨v ^^^ PAGEMAP_PRESENT_MASK⟩ = !SinglePageData.present ⟨v⟩ ∧
      SinglePageData.swap ⟨v ^^^ PAGEMAP_PRESENT_MASK⟩ = SinglePageData.swap ⟨v⟩ ∧
      SinglePageData.file_backed ⟨v ^^^ PAGEMAP_PRESENT_MASK⟩ = SinglePageData.file_backed ⟨v⟩ ∧
      SinglePageData.exclusive ⟨v ^^^ PAGEMAP_PRESENT_MASK⟩ = SinglePageData.exclusive ⟨v⟩ ∧
      SinglePageData.soft_dirty ⟨v ^^^ PAGEMAP_PRESENT_MASK⟩ = SinglePageData.soft_dirty ⟨v⟩ ∧
      SinglePageData.pfn ⟨v ^^^ PAGEMAP_PRESENT_MASK⟩ = SinglePageData.pfn ⟨v⟩) ∧
    (SinglePageData.swap ⟨v ^^^ PAGEMAP_SWAP_MASK⟩ = !SinglePageData.swap ⟨v⟩ ∧
      SinglePageData.present ⟨v ^^^ PAGEMAP_SWAP_MASK⟩ = SinglePageData.present ⟨v⟩ ∧
      SinglePageData.file_backed ⟨v ^^^ PAGEMAP_SWAP_MASK⟩ = SinglePageData.file_backed ⟨v⟩ ∧
      SinglePageData.exclusive ⟨v ^^^ PAGEMAP_SWAP_MASK⟩ = SinglePageData.exclusive ⟨v⟩ ∧
      SinglePageData.soft_dirty ⟨v ^^^ PAGEMAP_SWAP_MASK⟩ = SinglePageData.soft_dirty ⟨v⟩ ∧
      SinglePageData.pfn ⟨v ^^^ PAGEMAP_SWAP_MASK⟩ = SinglePageData.pfn ⟨v⟩) ∧
    (SinglePageData.file_backed ⟨v ^^^ PAGEMAP_FILE_MASK⟩ = !SinglePageData.file_backed ⟨v⟩ ∧
      SinglePageData.present ⟨v ^^^ PAGEMAP_FILE_MASK⟩ = SinglePageData.present ⟨v⟩ ∧
      SinglePageData.swap ⟨v ^^^ PAGEMAP_FILE_MASK⟩ = SinglePageData.swap ⟨v⟩ ∧
      SinglePageData.exclusive ⟨v ^^^ PAGEMAP_FILE_MASK⟩ = SinglePageData.exclusive ⟨v⟩ ∧
      SinglePageData.soft_dirty ⟨v ^^^ PAGEMAP_FILE_MASK⟩ = SinglePageData.soft_dirty ⟨v⟩ ∧
      SinglePageData.pfn ⟨v ^^^ PAGEMAP_FILE_MASK⟩ = SinglePageData.pfn ⟨v⟩) ∧
    (SinglePageData.exclusive ⟨v ^^^ PAGEMAP_EXCLUSIVE_MASK⟩ = !SinglePageData.exclusive ⟨v⟩ ∧
      SinglePageData.present ⟨v ^^^ PAGEMAP_EXCLUSIVE_MASK⟩ = SinglePageData.present ⟨v⟩ ∧
      SinglePageData.swap ⟨v ^^^ PAGEMAP_EXCLUSIVE_MASK⟩ = SinglePageData.swap ⟨v⟩ ∧
      SinglePageData.file_backed ⟨v ^^^ PAGEMAP_EXCLUSIVE_MASK⟩ = SinglePageData.file_backed ⟨v⟩ ∧
      SinglePageData.soft_dirty ⟨v ^^^ PAGEMAP_EXCLUSIVE_MASK⟩ = SinglePageData.soft_dirty ⟨v⟩ ∧
      SinglePageData.pfn ⟨v ^^^ PAGEMAP_EXCLUSIVE_MASK⟩ = SinglePageData.pfn ⟨v⟩) ∧
    (SinglePageData.soft_dirty ⟨v ^^^ PAGEMAP_SOFT_DIRTY_MASK⟩ = !SinglePageData.soft_dirty ⟨v⟩ ∧
      SinglePageData.present ⟨v ^^^ PAGEMAP_SOFT_DIRTY_MASK⟩ = SinglePageData.present ⟨v⟩ ∧
      SinglePageData.swap ⟨v ^^^ PAGEMAP_SOFT_DIRTY_MASK⟩ = SinglePageData.swap ⟨v⟩ ∧
      SinglePageData.file_backed ⟨v ^^^ PAGEMAP_SOFT_DIRTY_MASK⟩ = SinglePageData.file_backed ⟨v⟩ ∧
      SinglePageData.exclusive ⟨v ^^^ PAGEMAP_SOFT_DIRTY_MASK⟩ = SinglePageData.exclusive ⟨v⟩ ∧
      SinglePageData.pfn ⟨v ^^^ PAGEMAP_SOFT_DIRTY_MASK⟩ = SinglePageData.pfn ⟨v⟩) ∧
    (∀ k, k < 55 →
      SinglePageData.pfn ⟨v ^^^ (1 <<< k)⟩ ≠ SinglePageData.pfn ⟨v⟩ ∧
      SinglePageData.present ⟨v ^^^ (1 <<< k)⟩ = SinglePageData.present ⟨v⟩ ∧
      SinglePageData.swap ⟨v ^^^ (1 <<< k)⟩ = SinglePageData.swap ⟨v⟩ ∧
      SinglePageData.file_backed ⟨v ^^^ (1 <<< k)⟩ = SinglePageData.file_backed ⟨v⟩ ∧
      SinglePageData.exclusive ⟨v ^^^ (1 <<< k)⟩ = SinglePageData.exclusive ⟨v⟩ ∧
      SinglePageData.soft_dirty ⟨v ^^^ (1 <<< k)⟩ = SinglePageData.soft_dirty ⟨v⟩) := by
  refine ⟨⟨?_, ?_, ?_, ?_, ?_, ?_⟩, ⟨?_, ?_, ?_, ?_, ?_, ?_⟩, ⟨?_, ?_, ?_, ?_, ?_, ?_⟩,
    ⟨?_, ?_, ?_, ?_, ?_, ?_⟩, ⟨?_, ?_, ?_, ?_, ?_, ?_⟩, ?_⟩
  · unfold PAGEMAP_PRESENT_MASK
    rw [present_xor]
    simp
  · unfold PAGEMAP_PRESENT_MASK
    rw [swap_xor]
    simp
  · unfold PAGEMAP_PRESENT_MASK
    rw [file_backed_xor]
    simp
  · unfold PAGEMAP_PRESENT_MASK
    rw [exclusive_xor]
    simp
  · unfold PAGEMAP_PRESENT_MASK
    rw [soft_dirty_xor]
    simp
  · unfold PAGEMAP_PRESENT_MASK
    rw [pfn_toggle]
    simp
  · unfold PAGEMAP_SWAP_MASK
    rw [swap_xor]
    simp
  · unfold PAGEMAP_SWAP_MASK
    rw [present_xor]
    simp
  · unfold PAGEMAP_SWAP_MASK
    rw [file_backed_xor]
    simp
  · unfold PAGEMAP_SWAP_MASK
    rw [exclusive_xor]
    simp
  · unfold PAGEMAP_SWAP_MASK
    rw [soft_dirty_xor]
    simp
  · unfold PAGEMAP_SWAP_MASK
    rw [pfn_toggle]
    simp
  · unfold PAGEMAP_FILE_MASK
    rw [file_backed_xor]
    simp
  · unfold PAGEMAP_FILE_MASK
    rw [present_xor]
    simp
  · unfold PAGEMAP_FILE_MASK
    rw [swap_xor]
    simp
  · unfold PAGEMAP_FILE_MASK
    rw [exclusive_xor]
    simp
  · unfold PAGEMAP_FILE_MASK
    rw [soft_dirty_xor]
    simp
  · unfold PAGEMAP_FILE_MASK
    rw [pfn_toggle]
    simp
  · unfold PAGEMAP_EXCLUSIVE_MASK
    rw [exclusive_xor]
    simp
  · unfold PAGEMAP_EXCLUSIVE_MASK
    rw [present_xor]
    simp
  · unfold PAGEMAP_EXCLUSIVE_MASK
    rw [swap_xor]
    simp
  · unfold PAGEMAP_EXCLUSIVE_MASK
    rw [file_backed_xor]
    simp
  · unfold PAGEMAP_EXCLUSIVE_MASK
    rw [soft_dirty_xor]
    simp
  · unfold PAGEMAP_EXCLUSIVE_MASK
    rw [pfn_toggle]
    simp
  · unfold PAGEMAP_SOFT_DIRTY_MASK
    rw [soft_dirty_xor]
    simp
  · unfold PAGEMAP_SOFT_DIRTY_MASK
    rw [present_xor]
    simp
  · unfold PAGEMAP_SOFT_DIRTY_MASK
    rw [swap_xor]
    simp
  · unfold PAGEMAP_SOFT_DIRTY_MASK
    rw [file_backed_xor]
    simp
  · unfold PAGEMAP_SOFT_DIRTY_MASK
    rw [exclusive_xor]
    simp
  · unfold PAGEMAP_SOFT_DIRTY_MASK
    rw [pfn_toggle]
    simp
  · intro k hk
    have h63 : k ≠ 63 := by omega
    have h62 : k ≠ 62 := by omega
    have h61 : k ≠ 61 := by omega
    have h56 : k ≠ 56 := by omega
    have h55 : k ≠ 55 := by omega
    refine ⟨?_, ?_, ?_, ?_, ?_, ?_⟩
    · rw [pfn_toggle, if_pos hk]
      exact xor_shiftLeft_ne _ k
    · rw [present_xor, if_neg h63]
    · rw [swap_xor, if_neg h62]
    · rw [file_backed_xor, if_neg h61]
    · rw [exclusive_xor, if_neg h56]
    · rw [soft_dirty_xor, if_neg h55]

theorem flag_bit_independence_witness :
    (0 : Nat) < 2 ^ 64 ∧
      SinglePageData.present ⟨(0 : Nat) ^^^ PAGEMAP_PRESENT_MASK⟩ =
        !SinglePageData.present ⟨(0 : Nat)⟩ :=
  ⟨by decide, (flag_bit_independence 0 (by decide)).1.1⟩

lemma toString_nat_eq_repr (n : Nat) : toString n = Nat.repr n := rfl

/-- Claim C10: the canonical rendering of an entry is exactly five
one-character flags in the fixed order present, swap, file-backed, exclusive,
soft-dirty — each a dash if unset and a distinct letter if set — followed by a
single space and the masked frame field in unsigned decimal. -/
theorem display_canonical (v : Nat) :
    (SinglePageData.display ⟨v⟩).data =
      [if SinglePageData.present ⟨v⟩ then 'P' else '-',
       if SinglePageData.swap ⟨v⟩ then 'S' else '-',
       if SinglePageData.file_backed ⟨v⟩ then 'F' else '-',
       if SinglePageData.exclusive ⟨v⟩ then 'X' else '-',
       if SinglePageData.soft_dirty ⟨v⟩ then 'D' else '-',
       ' '] ++ (Nat.repr (SinglePageData.pfn ⟨v⟩)).data ∧
    (['P', 'S', 'F', 'X', 'D', '-'].Pairwise (· ≠ ·)) := by
  constructor
  · rw [SinglePageData.display, toString_nat_eq_repr]
    cases hp : SinglePageData.present ⟨v⟩ <;> cases hs : SinglePageData.swap ⟨v⟩ <;>
      cases hf : SinglePageData.file_backed ⟨v⟩ <;> cases hx : SinglePageData.exclusive ⟨v⟩ <;>
      cases hd : SinglePageData.soft_dirty ⟨v⟩ <;>
      simp [String.data_append]
  · decide

/-! ### Reader theorems -/

lemma land_page_mask (v : Nat) : v &&& (PAGE_SIZE - 1) = v % PAGE_SIZE := by
  unfold PAGE_SIZE
  rw [Nat.shiftLeft_eq, one_mul, Nat.and_pow_two_sub_one_eq_mod]

lemma page_size_eq_pow : PAGE_SIZE = 2 ^ PAGE_SHIFT := by
  rw [PAGE_SIZE, Nat.shiftLeft_eq, one_mul]

lemma shift_page (v : Nat) : (v + PAGE_SIZE) >>> PAGE_SHIFT = v >>> PAGE_SHIFT + 1 := by
  rw [Nat.shiftRight_eq_div_pow, Nat.shiftRight_eq_div_pow, page_size_eq_pow,
    Nat.add_div_right _ (by positivity)]

/-- Claim C5: a non-page-aligned address makes `get_by_vaddr` fail with the
contract-violation condition, and a range whose start is not page-aligned or
whose length is not a multiple of the page size makes `get_by_range` fail with
the contract-violation condition; neither ever returns data for such inputs. -/
theorem misaligned_reads_fail :
    (∀ (pm : PageMap) (vaddr : Nat), vaddr % PAGE_SIZE ≠ 0 →
      get_by_vaddr pm vaddr = .error .contractViolation) ∧
    (∀ (pm : PageMap) (start stop : Nat), start ≤ stop →
      start % PAGE_SIZE ≠ 0 ∨ (stop - start) % PAGE_SIZE ≠ 0 →
      get_by_range pm start stop = .error .contractViolation) := by
  constructor
  · intro pm vaddr h
    rw [get_by_vaddr, if_pos]
    rw [land_page_mask]
    simpa using h
  · intro pm start stop hle h
    rw [get_by_range]
    by_cases hsz : (stop - start) % PAGE_SIZE ≠ 0
    · rw [if_pos (by simpa using hsz)]
    · rcases h with hs | hsz2
      · rw [if_neg (by simpa using hsz), if_pos (by simpa using hs)]
      · exact absurd hsz2 hsz

theorem misaligned_reads_fail_witness :
    (5 : Nat) % PAGE_SIZE ≠ 0 ∧
      get_by_vaddr ⟨[]⟩ 5 = .error .contractViolation ∧
      get_by_range ⟨[]⟩ 1 4097 = .error .contractViolation :=
  ⟨by decide, misaligned_reads_fail.1 ⟨[]⟩ 5 (by decide),
    misaligned_reads_fail.2 ⟨[]⟩ 1 4097 (by decide) (Or.inl (by decide))⟩

lemma decodeChunks_succ (n : Nat) (data : List Nat) :
    decodeChunks (n + 1) data = ⟨fromBytesLE (data.take 8)⟩ :: decodeChunks n (data.drop 8) := rfl

lemma entriesViaPointReads_eq_bulk (pm : PageMap) :
    ∀ (n v : Nat), v % PAGE_SIZE = 0 →
      entriesViaPointReads pm v n =
        (match readExact pm ((v >>> PAGE_SHIFT) * 8) (n * 8) with
          | none => .error .ioFailure
          | some data => .ok (decodeChunks n data)) := by
  intro n
  induction n with
  | zero =>
    intro v hv
    rw [entriesViaPointReads, readExact, if_pos (by omega)]
    simp [decodeChunks]
  | succ n ih =>
    intro v hv
    have hcond : ¬((v &&& (PAGE_SIZE - 1) != 0) = true) := by
      simp [land_page_mask, hv]
    have hstep : (v + PAGE_SIZE) % PAGE_SIZE = 0 := by
      rw [Nat.add_mod_right]; exact hv
    have hshift : ((v + PAGE_SIZE) >>> PAGE_SHIFT) * 8 = (v >>> PAGE_SHIFT) * 8 + 8 := by
      rw [shift_page]; ring
    by_cases h8 : 8 ≤ pm.bytes.length - (v >>> PAGE_SHIFT) * 8
    · have hga : get_by_vaddr pm v =
          .ok ⟨fromBytesLE ((pm.bytes.drop ((v >>> PAGE_SHIFT) * 8)).take 8)⟩ := by
        rw [get_by_vaddr, if_neg hcond, readExact, if_pos h8]
      rw [entriesViaPointReads, hga, ih (v + PAGE_SIZE) hstep, hshift]
      by_cases hn8 : n * 8 ≤ pm.bytes.length - ((v >>> PAGE_SHIFT) * 8 + 8)
      · rw [readExact, if_pos hn8, readExact, if_pos (by omega)]
        have hmin : (8 : Nat) ⊓ ((n + 1) * 8) = 8 := by
          omega
        have hsub : (n + 1) * 8 - 8 = n * 8 := by omega
        have htake : ((pm.bytes.drop ((v >>> PAGE_SHIFT) * 8)).take ((n + 1) * 8)).take 8 =
            (pm.bytes.drop ((v >>> PAGE_SHIFT) * 8)).take 8 := by
          rw [List.take_take, hmin]
        have hdrop : ((pm.bytes.drop ((v >>> PAGE_SHIFT) * 8)).take ((n + 1) * 8)).drop 8 =
            (pm.bytes.drop ((v >>> PAGE_SHIFT) * 8 + 8)).take (n * 8) := by
          rw [List.drop_take, List.drop_drop, hsub]
        dsimp only
        rw [decodeChunks_succ, htake, hdrop]
      · rw [readExact, if_neg hn8, readExact, if_neg (by omega)]
    · have hga : get_by_vaddr pm v = .error .ioFailure := by
        rw [get_by_vaddr, if_neg hcond, readExact, if_neg h8]
      rw [entriesViaPointReads, hga, readExact, if_neg (by omega)]

lemma numPages_eq_div (a : Nat) : a >>> PAGE_SHIFT = a / PAGE_SIZE := by
  rw [Nat.shiftRight_eq_div_pow, page_size_eq_pow]

/-- Claim C6: on a page-aligned range, the bulk `get_by_range` returns exactly
the ordered concatenation of `get_by_vaddr` at each page boundary of the
range. -/
theorem range_read_equiv (pm : PageMap) (start stop : Nat) (hle : start ≤ stop)
    (hs : start % PAGE_SIZE = 0) (hr : (stop - start) % PAGE_SIZE = 0) :
    get_by_range pm start stop = entriesViaPointReads pm start ((stop - start) / PAGE_SIZE) := by
  rw [get_by_range, if_neg (by simp [hr]), if_neg (by simp [hs])]
  rw [entriesViaPointReads_eq_bulk pm ((stop - start) / PAGE_SIZE) start hs]
  rw [numPages_eq_div, numPages_eq_div]

theorem range_read_equiv_witness :
    get_by_range ⟨List.replicate 16 7⟩ 0 8192 =
      entriesViaPointReads ⟨List.replicate 16 7⟩ 0 ((8192 - 0) / PAGE_SIZE) :=
  range_read_equiv ⟨List.replicate 16 7⟩ 0 8192 (by decide) (by decide) (by decide)

/-- Claim C7: on a page-aligned range whose bulk read cannot be completed in
full, `get_by_range` reports an I/O failure and returns no entry sequence at
all. -/
theorem short_read_yields_io_failure (pm : PageMap) (start stop : Nat) (hle : start ≤ stop)
    (hs : start % PAGE_SIZE = 0) (hr : (stop - start) % PAGE_SIZE = 0)
    (hshort : pm.bytes.length - (start >>> PAGE_SHIFT) * 8 < ((stop - start) / PAGE_SIZE) * 8) :
    get_by_range pm start stop = .error .ioFailure ∧
      ∀ entries, get_by_range pm start stop ≠ .ok entries := by
  have hng : ¬(((stop - start) >>> PAGE_SHIFT) * 8 ≤
      pm.bytes.length - (start >>> PAGE_SHIFT) * 8) := by
    rw [numPages_eq_div]
    omega
  have hmain : get_by_range pm start stop = .error .ioFailure := by
    rw [get_by_range, if_neg (by simp [hr]), if_neg (by simp [hs]), readExact, if_neg hng]
  exact ⟨hmain, fun entries h => by rw [hmain] at h; exact Except.noConfusion h⟩

theorem short_read_yields_io_failure_witness :
    get_by_range ⟨[]⟩ 0 4096 = .error .ioFailure ∧
      ∀ entries, get_by_range ⟨[]⟩ 0 4096 ≠ .ok entries :=
  short_read_yields_io_failure ⟨[]⟩ 0 4096 (by decide) (by decide) (by decide) (by decide)

end FragTest
